import Mathlib

/-!
Verification of the Anime Folder Wizard folder-renaming workflow.

The development shallowly embeds the logical core of
AnimeFolderWizard.py: the filename sanitizer, the query builder
(including the bracket-stripping regex substitution), the metadata
search client, the candidate sort and truncation, and the folder-walk
controller with its rename step.  Machine strings are lists of
characters; Python dictionaries are association lists where the most
recent binding is listed first; the filesystem is the set of existing
paths; the possibility that the OS-level rename raises is modelled by
a boolean oracle passed to the step function.
-/

/-- The invalid filename characters removed by sanitize_filename
(source line 41). -/
def invalidChars : List Char := ['<', '>', ':', '"', '/', '\\', '|', '?', '*']

/-- Removal of every invalid character, as performed by the
replace loop of sanitize_filename (source lines 42-43). -/
def removeInvalid (l : List Char) : List Char :=
  l.filter (fun c => !(invalidChars.contains c))

/-- Removal of leading and trailing whitespace, modelling the Python
str.strip() call: first the trailing run is dropped (via reverse),
then the leading run. -/
def trimChars (l : List Char) : List Char :=
  ((l.reverse.dropWhile Char.isWhitespace).reverse).dropWhile Char.isWhitespace

/-- Python str.strip() on a whole string. -/
def pyStrip (s : String) : String :=
  String.mk (trimChars s.data)

/-- sanitize_filename (source lines 39-44): remove each character of
the invalid set, then strip surrounding whitespace. -/
def sanitize_filename (s : String) : String :=
  String.mk (trimChars (removeInvalid s.data))

/-- Opening characters of the bracket-stripping pattern. -/
def isOpenB (c : Char) : Bool := c = '(' || c = '['

/-- Closing characters of the bracket-stripping pattern. -/
def isCloseB (c : Char) : Bool := c = ')' || c = ']'

/-- Position of the first closing character reachable by the
non-greedy dot-star, which cannot cross a newline: none when a
newline or the end of the string comes first. -/
def findClose : List Char → Option Nat
  | [] => none
  | c :: cs =>
    if isCloseB c then some 0
    else if c = '\n' then none
    else (findClose cs).map (fun n => n + 1)

/-- The regex substitution of fetch_candidates (source line 167),
removing each leftmost non-greedy match of an opening paren or
bracket, a minimal run of non-newline characters, and a closing paren
or bracket; positions where no match starts are copied through. -/
def stripBrackets : List Char → List Char
  | [] => []
  | c :: cs =>
    if isOpenB c then
      match findClose cs with
      | some n => stripBrackets (cs.drop (n + 1))
      | none => c :: stripBrackets cs
    else c :: stripBrackets cs
termination_by l => l.length
decreasing_by
  · simp only [List.length_cons, List.length_drop]
    omega
  · simp only [List.length_cons]
    omega
  · simp only [List.length_cons]
    omega

/-- The query computation of fetch_candidates (source lines 158-168):
a stripped non-empty override wins; otherwise the folder name is used,
with bracketed and parenthesized spans removed and the result stripped
when the disregard flag is set. -/
def fetch_query (folder_name : String) (disregard : Bool)
    (override_raw : String) : String :=
  let override_query := pyStrip override_raw
  if override_query ≠ "" then override_query
  else if disregard then pyStrip (String.mk (stripBrackets folder_name.data))
  else folder_name

/-- A candidate record returned by the AniList search: id, optional
English title, romanized title, and optional start-date year (the
fields read at source lines 189-190 and 236-237). -/
structure Candidate where
  anilist_id : Nat
  english : Option String
  romaji : String
  year : Option Nat
deriving DecidableEq

/-- The sort key of fetch_candidates (source line 172): the start
year, with a missing year collapsed to 0 by the Python or-expression. -/
def yearKey (c : Candidate) : Nat :=
  match c.year with
  | some y => y
  | none => 0

/-- Stable insertion used to model the stable Python sorted with
reverse=True: a candidate moves left past strictly smaller keys only,
so the original order of equal keys is kept. -/
def insertDesc (c : Candidate) : List Candidate → List Candidate
  | [] => [c]
  | d :: ds => if yearKey c < yearKey d then d :: insertDesc c ds else c :: d :: ds

/-- Stable descending sort by year, modelling
sorted(candidates, key, reverse=True) at source line 172. -/
def sortDesc : List Candidate → List Candidate
  | [] => []
  | c :: cs => insertDesc c (sortDesc cs)

/-- Candidate post-processing of fetch_candidates (source lines
170-173): a non-empty list is sorted by year descending and truncated
to the first 5 entries; an empty list is passed through. -/
def postProcess (candidates : List Candidate) : List Candidate :=
  if candidates.isEmpty then candidates else (sortDesc candidates).take 5

/-- Outcome of the single requests.post call of search_anime together
with response parsing: exn covers a transport error, a non-success
HTTP status raised by raise_for_status, a JSON decoding failure, and a
null data object; ok carries the media list extracted by the get
chain, which yields the empty list when any level is absent. -/
inductive AniListOutcome
  | exn
  | ok (media : List Candidate)
deriving DecidableEq

/-- search_anime (source lines 27-37).  The second component counts
remote requests issued during the call: the body performs exactly one
requests.post, also on the failing paths.  Every outcome returns a
plain list; the except clause turns any exception into the empty
list, so no exception reaches the caller. -/
def search_anime (outcome : AniListOutcome) : List Candidate × Nat :=
  match outcome with
  | AniListOutcome.exn => ([], 1)
  | AniListOutcome.ok media => (media, 1)

/-- The Python or-expression over the two titles (source lines 189 and
236): the English title is used only when present and non-empty. -/
def pyOrStr (a : Option String) (b : String) : String :=
  match a with
  | some s => if s = "" then b else s
  | none => b

/-- The raw proposed name of get_new_name before sanitization (source
lines 236-238): title, suffixed with the parenthesized year when the
year is truthy, that is present and non-zero. -/
def buildRawName (anime : Candidate) : String :=
  let title := pyOrStr anime.english anime.romaji
  match anime.year with
  | some y => if y = 0 then title else title ++ " (" ++ toString y ++ ")"
  | none => title

/-- Modelled from the claim wording for comparison: the English title
whenever present (even empty), suffixed with the parenthesized year
whenever a year is present (even zero). -/
def claimedRawName (anime : Candidate) : String :=
  let title :=
    match anime.english with
    | some e => e
    | none => anime.romaji
  match anime.year with
  | some y => title ++ " (" ++ toString y ++ ")"
  | none => title

/-- os.path.join for the POSIX paths this model works with (source
lines 127 and 205). -/
def pathJoin (d n : String) : String := d ++ "/" ++ n

/-- Python dict lookup on an association list whose most recent
binding comes first. -/
def alookup {α : Type} (m : List (String × α)) (k : String) : Option α :=
  (m.find? (fun p => p.1 == k)).map (fun p => p.2)

/-- The mutable state of the AnimeFolderWizard application (source
lines 53-59) together with the set of paths existing on disk. -/
structure WizardState where
  directory : String
  folders : List String
  folder_paths : List (String × String)
  folder_candidates : List (String × List Candidate)
  selected_candidates : List (String × Nat)
  current_index : Nat
  current_candidates : List Candidate
  fs : List String
deriving DecidableEq

/-- The folder the controller is currently processing,
self.folders[self.current_index]. -/
def current_folder (s : WizardState) : String :=
  s.folders.getD s.current_index ""

/-- The selection write at source line 199, performed before the new
name is validated. -/
def record_selection (s : WizardState) (index : Nat) : WizardState :=
  { s with selected_candidates :=
      (current_folder s, index) :: s.selected_candidates }

/-- get_new_name (source lines 228-241): look up the recorded
selection and the cached candidate list; fail when no index is
recorded or the index is out of range; otherwise build the
title-plus-year name and sanitize it. -/
def get_new_name (s : WizardState) (folder : String) : Option String :=
  let candidate_index := alookup s.selected_candidates folder
  let candidates := (alookup s.folder_candidates folder).getD []
  match candidate_index with
  | none => none
  | some idx =>
    match candidates.get? idx with
    | none => none
    | some anime => some (sanitize_filename (buildRawName anime))

/-- next_folder (source lines 223-226): advance the index by one. -/
def next_folder (s : WizardState) : WizardState :=
  { s with current_index := s.current_index + 1 }

/-- skip_folder (source lines 217-221): advance without renaming. -/
def skip_folder (s : WizardState) : WizardState :=
  next_folder s

/-- Result reported by candidate_selected: the error dialog shown, or
success. -/
inductive SelectResult
  | invalidName
  | conflict
  | renameError
  | ok
deriving DecidableEq

/-- candidate_selected (source lines 196-215): record the selection,
build the new name (an absent or empty name aborts with an error
dialog), refuse an existing destination path, then attempt the
os.rename, whose possible exception is modelled by the osOk oracle;
only a successful rename updates the filesystem and advances the
walk. -/
def candidate_selected (s : WizardState) (index : Nat) (osOk : Bool) :
    SelectResult × WizardState :=
  let folder_name := current_folder s
  let s1 := record_selection s index
  match get_new_name s1 folder_name with
  | none => (SelectResult.invalidName, s1)
  | some new_name =>
    if new_name = "" then (SelectResult.invalidName, s1)
    else
      let old_path := (alookup s1.folder_paths folder_name).getD ""
      let new_path := pathJoin s1.directory new_name
      if s1.fs.contains new_path then (SelectResult.conflict, s1)
      else if osOk then
        (SelectResult.ok, next_folder { s1 with fs := new_path :: s1.fs.erase old_path })
      else (SelectResult.renameError, s1)

/-- load_folders (source lines 122-137): record the subdirectories of
the chosen directory (an entry is a name with its is-directory flag);
when none are found the index and the per-folder maps are left
untouched, otherwise they are reset and the walk starts at index 0. -/
def load_folders (s : WizardState) (items : List (String × Bool)) : WizardState :=
  let folders := (items.filter (fun it => it.2)).map (fun it => it.1)
  let s1 := { s with
    folders := folders,
    folder_paths := folders.map (fun n => (n, pathJoin s.directory n)) }
  if folders.isEmpty then s1
  else { s1 with current_index := 0, selected_candidates := [], folder_candidates := [] }

/-- What show_current_folder displays (source lines 139-151): done
once the index has reached the folder count, otherwise the folder at
the current index. -/
inductive WalkStatus
  | done
  | showing (folder : String)
deriving DecidableEq

/-- show_current_folder (source lines 139-151), which mutates no
walk state: past the end it reports completion and disables skip;
otherwise it displays the current folder and spawns the search. -/
def show_current_folder (s : WizardState) : WalkStatus :=
  if s.folders.length ≤ s.current_index then WalkStatus.done
  else WalkStatus.showing (s.folders.getD s.current_index "")

/-- The tail of fetch_candidates (source lines 169-176), run when the
background search for folder_name returns: the post-processed list
overwrites current_candidates and is cached for folder_name,
unconditionally, with no comparison of folder_name against the folder
the controller is now showing. -/
def fetch_complete (s : WizardState) (folder_name : String)
    (raw : List Candidate) : WizardState :=
  let candidates := postProcess raw
  { s with
    current_candidates := candidates,
    folder_candidates := (folder_name, candidates) :: s.folder_candidates }

/-- Concrete candidate with an English title and a year, used to
exercise the rename paths. -/
def animeYF : Candidate :=
  { anilist_id := 1, english := some "Fullmetal Alchemist",
    romaji := "Hagane no Renkinjutsushi", year := some 2003 }

/-- Concrete candidate whose constructed name sanitizes to the empty
string: a title of invalid characters only and no year. -/
def animeBad : Candidate :=
  { anilist_id := 2, english := some "???", romaji := "Unused", year := none }

/-- Concrete candidate with an empty-string English title and a zero
year, on which Python truthiness and option-presence disagree. -/
def animeCE : Candidate :=
  { anilist_id := 7, english := some "", romaji := "Shingeki no Kyojin",
    year := some 0 }

/-- Concrete walk state: one folder A inside directory d, with one
fetched candidate and no selection yet. -/
def baseState : WizardState :=
  { directory := "d"
    folders := ["A"]
    folder_paths := [("A", "d/A")]
    folder_candidates := [("A", [animeYF])]
    selected_candidates := []
    current_index := 0
    current_candidates := [animeYF]
    fs := ["d/A"] }

/-- baseState with the rename destination already present on disk. -/
def conflictState : WizardState :=
  { baseState with fs := ["d/A", "d/Fullmetal Alchemist (2003)"] }

/-- baseState whose only candidate yields an empty sanitized name. -/
def badState : WizardState :=
  { baseState with
    folder_candidates := [("A", [animeBad])]
    current_candidates := [animeBad] }

/-- baseState after its single folder has been handled. -/
def doneState : WizardState :=
  { baseState with current_index := 1 }

/-- Walk state that has already advanced past folder A and is showing
folder B, while the search spawned for A is still in flight. -/
def staleState : WizardState :=
  { directory := "d"
    folders := ["A", "B"]
    folder_paths := [("A", "d/A"), ("B", "d/B")]
    folder_candidates := []
    selected_candidates := []
    current_index := 1
    current_candidates := []
    fs := ["d/A", "d/B"] }

/-! ### Helper lemmas about trimming -/

theorem mem_of_mem_dropWhile {p : Char → Bool} {l : List Char} {c : Char}
    (h : c ∈ l.dropWhile p) : c ∈ l :=
  (List.dropWhile_sublist p).mem h

theorem mem_of_mem_trimChars {l : List Char} {c : Char}
    (h : c ∈ trimChars l) : c ∈ l := by
  unfold trimChars at h
  have h1 : c ∈ (l.reverse.dropWhile Char.isWhitespace).reverse :=
    mem_of_mem_dropWhile h
  rw [List.mem_reverse] at h1
  have h2 : c ∈ l.reverse := mem_of_mem_dropWhile h1
  rwa [List.mem_reverse] at h2

theorem head_dropWhile_false {p : Char → Bool} {l : List Char} {c : Char}
    (h : (l.dropWhile p).head? = some c) : p c = false := by
  induction l with
  | nil => simp [List.dropWhile] at h
  | cons a as ih =>
    by_cases hp : p a
    · rw [List.dropWhile_cons_of_pos hp] at h
      exact ih h
    · rw [List.dropWhile_cons_of_neg hp] at h
      simp at h
      rw [← h]
      exact Bool.of_not_eq_true hp

theorem getLast_dropWhile {p : Char → Bool} {l : List Char}
    (h : l.dropWhile p ≠ []) : (l.dropWhile p).getLast? = l.getLast? := by
  induction l with
  | nil => simp [List.dropWhile] at h
  | cons a as ih =>
    by_cases hp : p a
    · rw [List.dropWhile_cons_of_pos hp] at h ⊢
      have has : as ≠ [] := by
        intro hnil
        rw [hnil] at h
        simp [List.dropWhile] at h
      rw [ih h]
      cases as with
      | nil => exact absurd rfl has
      | cons b bs => rw [List.getLast?_cons_cons]
    · rw [List.dropWhile_cons_of_neg hp]

theorem dropWhile_eq_self_of_head {p : Char → Bool} {l : List Char}
    (h : ∀ c, l.head? = some c → p c = false) : l.dropWhile p = l := by
  cases l with
  | nil => rfl
  | cons a as =>
    have := h a rfl
    rw [List.dropWhile_cons_of_neg (by simp [this])]

theorem head_trimChars_false {l : List Char} {c : Char}
    (h : (trimChars l).head? = some c) : c.isWhitespace = false :=
  head_dropWhile_false h

theorem getLast_trimChars_false {l : List Char} {c : Char}
    (h : (trimChars l).getLast? = some c) : c.isWhitespace = false := by
  unfold trimChars at h
  have hne : (l.reverse.dropWhile Char.isWhitespace).reverse.dropWhile
      Char.isWhitespace ≠ [] := by
    intro hnil
    rw [hnil] at h
    simp at h
  rw [getLast_dropWhile hne, List.getLast?_reverse] at h
  exact head_dropWhile_false h

theorem trimChars_idem (l : List Char) : trimChars (trimChars l) = trimChars l := by
  have hhead : ∀ c, (trimChars l).head? = some c → c.isWhitespace = false :=
    fun c hc => head_trimChars_false hc
  have hlast : ∀ c, (trimChars l).getLast? = some c → c.isWhitespace = false :=
    fun c hc => getLast_trimChars_false hc
  have h1 : (trimChars l).reverse.dropWhile Char.isWhitespace
      = (trimChars l).reverse := by
    apply dropWhile_eq_self_of_head
    intro c hc
    rw [List.head?_reverse] at hc
    exact hlast c hc
  calc trimChars (trimChars l)
      = ((trimChars l).reverse.dropWhile Char.isWhitespace).reverse.dropWhile
          Char.isWhitespace := rfl
    _ = (trimChars l).reverse.reverse.dropWhile Char.isWhitespace := by rw [h1]
    _ = (trimChars l).dropWhile Char.isWhitespace := by rw [List.reverse_reverse]
    _ = trimChars l := dropWhile_eq_self_of_head hhead

theorem removeInvalid_trimChars_removeInvalid (l : List Char) :
    removeInvalid (trimChars (removeInvalid l)) = trimChars (removeInvalid l) := by
  apply List.filter_eq_self.mpr
  intro c hc
  have hmem : c ∈ removeInvalid l := mem_of_mem_trimChars hc
  exact (List.mem_filter.mp hmem).2

/-- C2: the sanitizer removes every invalid character, leaves no
leading or trailing whitespace, introduces no character not present in
the input, and is idempotent. -/
theorem c2_sanitize_props (s : String) :
    ((sanitize_filename s).data.all
        (fun c => !(invalidChars.contains c))) = true ∧
    ((sanitize_filename s).data.head?.all
        (fun c => !c.isWhitespace)) = true ∧
    ((sanitize_filename s).data.getLast?.all
        (fun c => !c.isWhitespace)) = true ∧
    ((sanitize_filename s).data.all
        (fun c => decide (c ∈ s.data))) = true ∧
    sanitize_filename (sanitize_filename s) = sanitize_filename s := by
  refine ⟨?_, ?_, ?_, ?_, ?_⟩
  · rw [List.all_eq_true]
    intro c hc
    have hmem : c ∈ removeInvalid s.data := mem_of_mem_trimChars hc
    exact (List.mem_filter.mp hmem).2
  · cases hh : (sanitize_filename s).data.head? with
    | none => rfl
    | some c =>
      have : c.isWhitespace = false := head_trimChars_false hh
      simp [Option.all, this]
  · cases hh : (sanitize_filename s).data.getLast? with
    | none => rfl
    | some c =>
      have : c.isWhitespace = false := getLast_trimChars_false hh
      simp [Option.all, this]
  · rw [List.all_eq_true]
    intro c hc
    have hmem : c ∈ removeInvalid s.data := mem_of_mem_trimChars hc
    simpa using (List.mem_filter.mp hmem).1
  · show String.mk (trimChars (removeInvalid (trimChars (removeInvalid s.data))))
        = String.mk (trimChars (removeInvalid s.data))
    rw [removeInvalid_trimChars_removeInvalid, trimChars_idem]

/-! ### Properties of the query builder -/

theorem findClose_append (inner : List Char) (cl : Char) (b : List Char)
    (hinner : ∀ c ∈ inner, isCloseB c = false ∧ c ≠ '\n')
    (hcl : isCloseB cl = true) :
    findClose (inner ++ cl :: b) = some inner.length := by
  induction inner with
  | nil => simp [findClose, hcl]
  | cons x xs ih =>
    have hx := hinner x (List.mem_cons_self x xs)
    rw [List.cons_append]
    unfold findClose
    rw [if_neg (by simp [hx.1]), if_neg (by simp [hx.2])]
    rw [ih (fun c hc => hinner c (List.mem_cons_of_mem x hc))]
    simp

theorem stripBrackets_span (a inner b : List Char) (op cl : Char)
    (ha : ∀ c ∈ a, isOpenB c = false)
    (hop : isOpenB op = true) (hcl : isCloseB cl = true)
    (hinner : ∀ c ∈ inner, isCloseB c = false ∧ c ≠ '\n') :
    stripBrackets (a ++ op :: (inner ++ cl :: b)) = a ++ stripBrackets b := by
  induction a with
  | nil =>
    rw [List.nil_append, List.nil_append]
    rw [stripBrackets]
    rw [if_pos hop, findClose_append inner cl b hinner hcl]
    have hdrop : (inner ++ cl :: b).drop (inner.length + 1) = b := by
      rw [show inner.length + 1 = (inner ++ [cl]).length by simp]
      rw [show inner ++ cl :: b = (inner ++ [cl]) ++ b by simp]
      exact List.drop_left (inner ++ [cl]) b
    show stripBrackets ((inner ++ cl :: b).drop (inner.length + 1)) = stripBrackets b
    rw [hdrop]
  | cons x xs ih =>
    have hx := ha x (List.mem_cons_self x xs)
    rw [List.cons_append]
    rw [stripBrackets]
    rw [if_neg (by simp [hx])]
    rw [ih (fun c hc => ha c (List.mem_cons_of_mem x hc))]
    rfl

/-- C3 counterexample: with an override that carries surrounding
whitespace, the query is the stripped override, not the override
verbatim. -/
theorem c3_counterexample :
    pyStrip " Custom Query " ≠ "" ∧
    fetch_query "Name" false " Custom Query " = "Custom Query" ∧
    fetch_query "Name" false " Custom Query " ≠ " Custom Query " := by
  refine ⟨by decide, by decide, by decide⟩

/-- C3 (amended): a non-empty-after-stripping override yields the
stripped override as the query regardless of folder name and flag;
otherwise the flag selects between the bracket-stripped-and-trimmed
folder name and the folder name unchanged. -/
theorem c3_query_builder (folder_name override_raw : String) (disregard : Bool) :
    (pyStrip override_raw ≠ "" →
        fetch_query folder_name disregard override_raw = pyStrip override_raw) ∧
    (pyStrip override_raw = "" → disregard = true →
        fetch_query folder_name disregard override_raw
          = pyStrip (String.mk (stripBrackets folder_name.data))) ∧
    (pyStrip override_raw = "" → disregard = false →
        fetch_query folder_name disregard override_raw = folder_name) := by
  refine ⟨?_, ?_, ?_⟩
  · intro h
    simp [fetch_query, h]
  · intro h hd
    simp [fetch_query, h, hd]
  · intro h hd
    simp [fetch_query, h, hd]

/-- Witness for C3 at concrete inputs covering all three branches. -/
theorem c3_query_builder_witness :
    fetch_query "A" false " X " = pyStrip " X " ∧
    fetch_query "A (1)" true "" = pyStrip (String.mk (stripBrackets ("A (1)" : String).data)) ∧
    fetch_query "B" false "" = "B" :=
  ⟨(c3_query_builder "A" " X " false).1 (by decide),
   (c3_query_builder "A (1)" "" true).2.1 (by decide) rfl,
   (c3_query_builder "B" "" false).2.2 (by decide) rfl⟩

/-! ### Properties of the candidate sort -/

theorem mem_insertDesc {x c : Candidate} {l : List Candidate} :
    x ∈ insertDesc c l ↔ x = c ∨ x ∈ l := by
  induction l with
  | nil => simp [insertDesc]
  | cons d ds ih =>
    by_cases hlt : yearKey c < yearKey d
    · simp only [insertDesc, if_pos hlt, List.mem_cons, ih]
      tauto
    · simp only [insertDesc, if_neg hlt, List.mem_cons]

theorem pairwise_insertDesc {c : Candidate} {l : List Candidate}
    (h : List.Pairwise (fun a b => yearKey b ≤ yearKey a) l) :
    List.Pairwise (fun a b => yearKey b ≤ yearKey a) (insertDesc c l) := by
  induction l with
  | nil => simp [insertDesc]
  | cons d ds ih =>
    rcases List.pairwise_cons.mp h with ⟨hd, hds⟩
    by_cases hlt : yearKey c < yearKey d
    · simp only [insertDesc, if_pos hlt]
      apply List.pairwise_cons.mpr
      refine ⟨?_, ih hds⟩
      intro x hx
      rcases mem_insertDesc.mp hx with rfl | hxm
      · exact Nat.le_of_lt hlt
      · exact hd x hxm
    · simp only [insertDesc, if_neg hlt]
      apply List.pairwise_cons.mpr
      refine ⟨?_, h⟩
      intro x hx
      rcases List.mem_cons.mp hx with rfl | hxm
      · exact Nat.le_of_not_lt hlt
      · exact Nat.le_trans (hd x hxm) (Nat.le_of_not_lt hlt)

theorem sortDesc_pairwise (l : List Candidate) :
    List.Pairwise (fun a b => yearKey b ≤ yearKey a) (sortDesc l) := by
  induction l with
  | nil => simp [sortDesc]
  | cons c cs ih => exact pairwise_insertDesc ih

theorem insertDesc_perm (c : Candidate) (l : List Candidate) :
    (insertDesc c l).Perm (c :: l) := by
  induction l with
  | nil => simp [insertDesc]
  | cons d ds ih =>
    by_cases hlt : yearKey c < yearKey d
    · simp only [insertDesc, if_pos hlt]
      exact (List.Perm.cons d ih).trans (List.Perm.swap c d ds)
    · simp only [insertDesc, if_neg hlt]
      exact List.Perm.refl (c :: d :: ds)

theorem sortDesc_perm (l : List Candidate) : (sortDesc l).Perm l := by
  induction l with
  | nil => simp [sortDesc]
  | cons c cs ih =>
    exact (insertDesc_perm c (sortDesc cs)).trans (List.Perm.cons c ih)

theorem filter_insertDesc (k : Nat) (c : Candidate) (l : List Candidate) :
    (insertDesc c l).filter (fun x => yearKey x == k)
      = if yearKey c = k then c :: l.filter (fun x => yearKey x == k)
        else l.filter (fun x => yearKey x == k) := by
  induction l with
  | nil =>
    by_cases hc : yearKey c = k <;> simp [insertDesc, List.filter_cons, hc]
  | cons d ds ih =>
    by_cases hlt : yearKey c < yearKey d
    · by_cases hc : yearKey c = k
      · have hdk : ¬ yearKey d = k := by omega
        simp only [insertDesc, if_pos hlt, List.filter_cons]
        simp [hdk, ih, hc]
      · simp only [insertDesc, if_pos hlt, List.filter_cons]
        by_cases hdk : yearKey d = k <;> simp [hdk, ih, hc]
    · by_cases hc : yearKey c = k
      · simp only [insertDesc, if_neg hlt, List.filter_cons]
        simp [hc]
      · simp only [insertDesc, if_neg hlt, List.filter_cons]
        simp [hc]

theorem filter_sortDesc (k : Nat) (l : List Candidate) :
    (sortDesc l).filter (fun x => yearKey x == k)
      = l.filter (fun x => yearKey x == k) := by
  induction l with
  | nil => simp [sortDesc]
  | cons c cs ih =>
    show (insertDesc c (sortDesc cs)).filter (fun x => yearKey x == k) = _
    rw [filter_insertDesc, List.filter_cons]
    by_cases hc : yearKey c = k <;> simp [hc, ih]

/-- C4: post-processing truncates the year-descending sort to the
first 5 entries; the sort is a stable permutation of its input (equal
keys keep their relative order, stated through filters over each key),
is pairwise descending on the key that collapses a missing year to 0,
and therefore places missing-year candidates after every candidate
with a positive year. -/
theorem c4_sort_props (l : List Candidate) :
    postProcess l = (sortDesc l).take 5 ∧
    (postProcess l).length ≤ 5 ∧
    List.Pairwise (fun a b => yearKey b ≤ yearKey a) (postProcess l) ∧
    List.Pairwise (fun a b => a.year = none → yearKey b = 0) (postProcess l) ∧
    (sortDesc l).Perm l ∧
    (∀ k : Nat, (sortDesc l).filter (fun c => yearKey c == k)
        = l.filter (fun c => yearKey c == k)) := by
  have heq : postProcess l = (sortDesc l).take 5 := by
    by_cases h : l.isEmpty
    · rw [List.isEmpty_iff.mp h]
      simp [postProcess, sortDesc]
    · simp [postProcess, h]
  have hpw : List.Pairwise (fun a b => yearKey b ≤ yearKey a) (postProcess l) := by
    rw [heq]
    exact (sortDesc_pairwise l).sublist (List.take_sublist 5 (sortDesc l))
  refine ⟨heq, ?_, hpw, ?_, sortDesc_perm l, fun k => filter_sortDesc k l⟩
  · rw [heq]
    exact List.length_take_le 5 (sortDesc l)
  · apply hpw.imp
    intro a b hab hnone
    have : yearKey a = 0 := by simp [yearKey, hnone]
    omega

/-! ### The proposed name and the search client -/

/-- C5 counterexample: on a candidate with an empty-string English
title and a zero year, the code falls back to the romanized title and
adds no year suffix, while the claimed name keeps the empty English
title and the zero-year suffix. -/
theorem c5_counterexample :
    sanitize_filename (buildRawName animeCE) = "Shingeki no Kyojin" ∧
    sanitize_filename (claimedRawName animeCE) = "(0)" ∧
    sanitize_filename (buildRawName animeCE)
      ≠ sanitize_filename (claimedRawName animeCE) := by
  refine ⟨by decide, by decide, by decide⟩

/-- C5 (amended): for a recorded in-range selection, the proposed
name is the sanitized title-plus-year built from the candidate, where
the title is the English title when present and non-empty (else the
romanized title) and the year suffix appears exactly when the year is
present and non-zero. -/
theorem c5_new_name (s : WizardState) (folder : String) (idx : Nat)
    (cands : List Candidate) (anime : Candidate)
    (hsel : alookup s.selected_candidates folder = some idx)
    (hcands : alookup s.folder_candidates folder = some cands)
    (hidx : cands[idx]? = some anime) :
    get_new_name s folder = some (sanitize_filename (buildRawName anime)) := by
  simp [get_new_name, hsel, hcands, hidx]

/-- Witness for C5 at a concrete state. -/
theorem c5_new_name_witness :
    get_new_name (record_selection baseState 0) "A"
      = some (sanitize_filename (buildRawName animeYF)) :=
  c5_new_name (record_selection baseState 0) "A" 0 [animeYF] animeYF
    (by decide) (by decide) (by decide)

/-- C6: search_anime issues exactly one remote request per call, an
exceptional outcome yields the empty candidate list, and a parsed
response yields its media list; the function is total, so no
exception propagates to the caller. -/
theorem c6_search_soft_fail :
    (∀ o : AniListOutcome, (search_anime o).2 = 1) ∧
    (search_anime AniListOutcome.exn).1 = [] ∧
    (∀ media : List Candidate, (search_anime (AniListOutcome.ok media)).1 = media) :=
  ⟨fun o => by cases o <;> rfl, rfl, fun _ => rfl⟩

/-! ### Controller lemmas -/

theorem record_selection_fs (s : WizardState) (i : Nat) :
    (record_selection s i).fs = s.fs := rfl

theorem record_selection_current_index (s : WizardState) (i : Nat) :
    (record_selection s i).current_index = s.current_index := rfl

theorem next_folder_fs (s : WizardState) : (next_folder s).fs = s.fs := rfl

theorem next_folder_current_index (s : WizardState) :
    (next_folder s).current_index = s.current_index + 1 := rfl

theorem candidate_selected_eq (s : WizardState) (index : Nat) (osOk : Bool)
    (new_name : String)
    (hname : get_new_name (record_selection s index) (current_folder s)
      = some new_name)
    (hne : new_name ≠ "") :
    candidate_selected s index osOk =
      if s.fs.contains (pathJoin s.directory new_name) then
        (SelectResult.conflict, record_selection s index)
      else if osOk then
        (SelectResult.ok, next_folder { record_selection s index with
          fs := pathJoin s.directory new_name
            :: s.fs.erase ((alookup s.folder_paths (current_folder s)).getD "") })
      else (SelectResult.renameError, record_selection s index) := by
  simp only [candidate_selected, hname]
  rw [if_neg hne]
  rfl

theorem candidate_selected_cases (s : WizardState) (index : Nat) (osOk : Bool) :
    ((candidate_selected s index osOk).1 = SelectResult.ok ∧
      (candidate_selected s index osOk).2.current_index = s.current_index + 1) ∨
    ((candidate_selected s index osOk).1 ≠ SelectResult.ok ∧
      (candidate_selected s index osOk).2.current_index = s.current_index) := by
  simp only [candidate_selected]
  split
  · right
    exact ⟨by simp, rfl⟩
  · split
    · right
      exact ⟨by simp, rfl⟩
    · split
      · right
        exact ⟨by simp, rfl⟩
      · split
        · left
          exact ⟨rfl, rfl⟩
        · right
          exact ⟨by simp, rfl⟩

/-- C1: for a rename attempt with a validated non-empty name, an
already-existing destination yields a conflict error with the
filesystem and the walk index untouched; otherwise a successful OS
rename atomically replaces the source path by the destination path
and advances the walk, while a raising OS rename yields a rename
error with the filesystem and index untouched. -/
theorem c1_rename_semantics (s : WizardState) (index : Nat) (osOk : Bool)
    (new_name : String)
    (hname : get_new_name (record_selection s index) (current_folder s)
      = some new_name)
    (hne : new_name ≠ "") :
    (s.fs.contains (pathJoin s.directory new_name) = true →
        (candidate_selected s index osOk).1 = SelectResult.conflict ∧
        (candidate_selected s index osOk).2.fs = s.fs ∧
        (candidate_selected s index osOk).2.current_index = s.current_index) ∧
    (s.fs.contains (pathJoin s.directory new_name) = false → osOk = true →
        (candidate_selected s index osOk).1 = SelectResult.ok ∧
        (candidate_selected s index osOk).2.fs
          = pathJoin s.directory new_name
              :: s.fs.erase ((alookup s.folder_paths (current_folder s)).getD "") ∧
        (candidate_selected s index osOk).2.current_index = s.current_index + 1) ∧
    (s.fs.contains (pathJoin s.directory new_name) = false → osOk = false →
        (candidate_selected s index osOk).1 = SelectResult.renameError ∧
        (candidate_selected s index osOk).2.fs = s.fs ∧
        (candidate_selected s index osOk).2.current_index = s.current_index) := by
  rw [candidate_selected_eq s index osOk new_name hname hne]
  refine ⟨?_, ?_, ?_⟩
  · intro hc
    rw [if_pos hc]
    exact ⟨rfl, rfl, rfl⟩
  · intro hc hos
    rw [if_neg (fun hx => Bool.noConfusion (hc ▸ hx)), if_pos hos]
    exact ⟨rfl, rfl, rfl⟩
  · intro hc hos
    rw [if_neg (fun hx => Bool.noConfusion (hc ▸ hx)),
      if_neg (fun hx => Bool.noConfusion (hos ▸ hx))]
    exact ⟨rfl, rfl, rfl⟩

/-- Witness for C1: the conflict, success, and OS-failure branches at
concrete states. -/
theorem c1_rename_semantics_witness :
    ((candidate_selected conflictState 0 true).1 = SelectResult.conflict ∧
      (candidate_selected conflictState 0 true).2.fs = conflictState.fs ∧
      (candidate_selected conflictState 0 true).2.current_index
        = conflictState.current_index) ∧
    ((candidate_selected baseState 0 true).1 = SelectResult.ok ∧
      (candidate_selected baseState 0 true).2.fs
        = pathJoin baseState.directory "Fullmetal Alchemist (2003)"
            :: baseState.fs.erase
                ((alookup baseState.folder_paths (current_folder baseState)).getD "") ∧
      (candidate_selected baseState 0 true).2.current_index
        = baseState.current_index + 1) ∧
    ((candidate_selected baseState 0 false).1 = SelectResult.renameError ∧
      (candidate_selected baseState 0 false).2.fs = baseState.fs ∧
      (candidate_selected baseState 0 false).2.current_index
        = baseState.current_index) :=
  ⟨(c1_rename_semantics conflictState 0 true "Fullmetal Alchemist (2003)"
      (by decide) (by decide)).1 (by decide),
   (c1_rename_semantics baseState 0 true "Fullmetal Alchemist (2003)"
      (by decide) (by decide)).2.1 (by decide) rfl,
   (c1_rename_semantics baseState 0 false "Fullmetal Alchemist (2003)"
      (by decide) (by decide)).2.2 (by decide) rfl⟩

/-- C7: a non-empty enumeration starts the walk at index 0; a skip
advances the index by exactly 1; a selection advances it by exactly 1
on success and leaves it unchanged otherwise, so the index never
decreases; once the index reaches the folder count the walk reports
done, and below the count it shows the folder at the current index,
in listing order. -/
theorem c7_walk (s : WizardState) (items : List (String × Bool)) (index : Nat)
    (osOk : Bool) :
    ((items.filter (fun it => it.2)).map (fun it => it.1) ≠ [] →
        (load_folders s items).current_index = 0) ∧
    (skip_folder s).current_index = s.current_index + 1 ∧
    ((candidate_selected s index osOk).1 = SelectResult.ok →
        (candidate_selected s index osOk).2.current_index = s.current_index + 1) ∧
    ((candidate_selected s index osOk).1 ≠ SelectResult.ok →
        (candidate_selected s index osOk).2.current_index = s.current_index) ∧
    (s.folders.length ≤ s.current_index → show_current_folder s = WalkStatus.done) ∧
    (s.current_index < s.folders.length →
        show_current_folder s
          = WalkStatus.showing (s.folders.getD s.current_index "")) := by
  refine ⟨?_, rfl, ?_, ?_, ?_, ?_⟩
  · intro h
    simp only [load_folders]
    rw [if_neg (by simpa using h)]
  · intro hok
    rcases candidate_selected_cases s index osOk with ⟨h1, h2⟩ | ⟨h1, h2⟩
    · exact h2
    · exact absurd hok h1
  · intro hnok
    rcases candidate_selected_cases s index osOk with ⟨h1, h2⟩ | ⟨h1, h2⟩
    · exact absurd h1 hnok
    · exact h2
  · intro h
    simp only [show_current_folder]
    rw [if_pos h]
  · intro h
    simp only [show_current_folder]
    rw [if_neg (by omega)]

/-- Witness for C7 at concrete states: a fresh load, a skip, a
successful selection, a failing selection, the done report, and the
in-order display. -/
theorem c7_walk_witness :
    (load_folders baseState [("A", true), ("movie.mkv", false)]).current_index = 0 ∧
    (skip_folder baseState).current_index = baseState.current_index + 1 ∧
    (candidate_selected baseState 0 true).2.current_index
      = baseState.current_index + 1 ∧
    (candidate_selected conflictState 0 true).2.current_index
      = conflictState.current_index ∧
    show_current_folder doneState = WalkStatus.done ∧
    show_current_folder baseState
      = WalkStatus.showing (baseState.folders.getD baseState.current_index "") :=
  ⟨(c7_walk baseState [("A", true), ("movie.mkv", false)] 0 true).1 (by decide),
   (c7_walk baseState [] 0 true).2.1,
   (c7_walk baseState [] 0 true).2.2.1 (by decide),
   (c7_walk conflictState [] 0 true).2.2.2.1 (by decide),
   (c7_walk doneState [] 0 true).2.2.2.2.1 (by decide),
   (c7_walk baseState [] 0 true).2.2.2.2.2 (by decide)⟩

/-- C8: finalizing with a selection index out of range of the current
folder's candidate list surfaces an error, attempts no rename (the
filesystem is untouched), and leaves the walk index where it was; and
get_new_name fails outright whenever no selection is recorded for a
folder. -/
theorem c8_no_candidate (s : WizardState) (index : Nat) (osOk : Bool)
    (hrange : ((alookup s.folder_candidates (current_folder s)).getD []).length
      ≤ index) :
    (candidate_selected s index osOk).1 = SelectResult.invalidName ∧
    (candidate_selected s index osOk).2.fs = s.fs ∧
    (candidate_selected s index osOk).2.current_index = s.current_index ∧
    (∀ (t : WizardState) (f : String),
        alookup t.selected_candidates f = none → get_new_name t f = none) := by
  have hsel : alookup (record_selection s index).selected_candidates
      (current_folder s) = some index := by
    simp [record_selection, alookup]
  have hrange2 : ((alookup (record_selection s index).folder_candidates
      (current_folder s)).getD []).length ≤ index := hrange
  have hnone : get_new_name (record_selection s index) (current_folder s)
      = none := by
    simp only [get_new_name, hsel]
    rw [List.get?_eq_none.mpr hrange2]
  refine ⟨?_, ?_, ?_, ?_⟩
  · simp [candidate_selected, hnone]
  · simp [candidate_selected, hnone, record_selection_fs]
  · simp [candidate_selected, hnone, record_selection_current_index]
  · intro t f h
    simp [get_new_name, h]

/-- Witness for C8: selecting index 5 while only one candidate is
cached. -/
theorem c8_no_candidate_witness :
    (candidate_selected baseState 5 true).1 = SelectResult.invalidName ∧
    (candidate_selected baseState 5 true).2.fs = baseState.fs ∧
    (candidate_selected baseState 5 true).2.current_index
      = baseState.current_index :=
  ⟨(c8_no_candidate baseState 5 true (by decide)).1,
   (c8_no_candidate baseState 5 true (by decide)).2.1,
   (c8_no_candidate baseState 5 true (by decide)).2.2.1⟩

/-- C10: when the constructed name sanitizes to the empty string the
step stops at the name check: an error is reported, no rename happens
(the filesystem is untouched), and the walk index does not advance. -/
theorem c10_empty_name (s : WizardState) (index : Nat) (osOk : Bool)
    (hempty : get_new_name (record_selection s index) (current_folder s)
      = some "") :
    (candidate_selected s index osOk).1 = SelectResult.invalidName ∧
    (candidate_selected s index osOk).2.fs = s.fs ∧
    (candidate_selected s index osOk).2.current_index = s.current_index := by
  refine ⟨?_, ?_, ?_⟩
  · simp [candidate_selected, hempty]
  · simp [candidate_selected, hempty, record_selection_fs]
  · simp [candidate_selected, hempty, record_selection_current_index]

/-- Witness for C10: a candidate whose title is question marks only
and has no year sanitizes to the empty name and is rejected. -/
theorem c10_empty_name_witness :
    sanitize_filename (buildRawName animeBad) = "" ∧
    (candidate_selected badState 0 true).1 = SelectResult.invalidName ∧
    (candidate_selected badState 0 true).2.fs = badState.fs ∧
    (candidate_selected badState 0 true).2.current_index
      = badState.current_index :=
  ⟨by decide,
   (c10_empty_name badState 0 true (by decide)).1,
   (c10_empty_name badState 0 true (by decide)).2.1,
   (c10_empty_name badState 0 true (by decide)).2.2⟩

/-- C9: the late completion of the search spawned for folder A, landing
after the walk has advanced to folder B, is not discarded: it
overwrites the displayed candidate list (current_candidates) with the
stale result while the current folder is still B, and caches the list
under A so that folder B still has no cached candidates. -/
theorem c9_stale_applied :
    current_folder staleState = "B" ∧
    (fetch_complete staleState "A" [animeYF]).current_candidates = [animeYF] ∧
    (fetch_complete staleState "A" [animeYF]).current_candidates
      ≠ staleState.current_candidates ∧
    current_folder (fetch_complete staleState "A" [animeYF]) = "B" ∧
    alookup (fetch_complete staleState "A" [animeYF]).folder_candidates "B"
      = none := by
  refine ⟨rfl, by decide, by decide, rfl, by decide⟩
